import Mathlib

/-!
Verification development for the HTML page change detector
(`html_page_detector.py`).

The detector core is embedded shallowly:

* `PageStructure` mirrors the dictionary produced by
  `HTMLPageDetector.extract_xpath_structure`; Python dictionaries are
  modelled as association lists (insertion-ordered, unique keys in any
  dictionary actually produced by the code); indexing `d[k]` and
  membership `k in d` are modelled by `dictGet` / `dictContains`, and
  `for k in d` iterates `keysOf d`.
* the diff engine (`compare_structures` and its four helper passes) is a
  direct transcription of the source; Python `str(...)` rendering of the
  snapshot records (used only to fill `old_value` / `new_value`) is
  modelled by the deterministic `elemRepr` / `tableRepr` / `formRepr` /
  `headersRepr` functions — the claims depend only on these being fixed
  functions of the snapshots.
* `datetime.now()` taken once at the top of `compare_structures` is
  modelled by an explicit `now : Nat` argument.
-/

/-- Element snapshot stored under `structure['elements'][xpath]`:
tag, truncated text and truncated tail. -/
structure ElementSnapshot where
  tag : String
  text : String
  tail : String
deriving DecidableEq, Repr

/-- Table snapshot produced by `_extract_table_structure`. -/
structure TableStruct where
  headers : List String
  row_count : Nat
  column_count : Nat
deriving DecidableEq, Repr

/-- One entry of a form snapshot's `inputs` list. -/
structure FormInput where
  type : String
  name : String
  id : String
  classAttr : String
deriving DecidableEq, Repr

/-- Form snapshot produced by `_extract_form_structure`. -/
structure FormStruct where
  action : String
  method : String
  inputs : List FormInput
deriving DecidableEq, Repr

/-- The structure dictionary built by `extract_xpath_structure`:
four path-keyed dictionaries. -/
structure PageStructure where
  elements : List (String × ElementSnapshot)
  attributes : List (String × List (String × String))
  tables : List (String × TableStruct)
  forms : List (String × FormStruct)
deriving DecidableEq, Repr

/-- The `ChangeDetails` dataclass. -/
structure ChangeDetails where
  change_type : String
  xpath : String
  old_value : Option String
  new_value : Option String
  element_type : String
  timestamp : Nat
deriving DecidableEq, Repr

/-- Dictionary lookup `d[k]` / `d.get(k)` on an association list. -/
def dictGet {α : Type} (d : List (String × α)) (k : String) : Option α :=
  match d with
  | [] => none
  | (k', v) :: rest => if k' = k then some v else dictGet rest k

/-- Dictionary membership `k in d`. -/
def dictContains {α : Type} (d : List (String × α)) (k : String) : Bool :=
  (dictGet d k).isSome

/-- Key view of a dictionary, in insertion order (`for k in d`). -/
def keysOf {α : Type} (d : List (String × α)) : List String :=
  d.map (fun p => p.1)

/-- Union of the key sets of two dictionaries
(`set(old.keys()) | set(new.keys())`); the concrete order is one of the
orders Python's set iteration may produce, and nothing below depends on it. -/
def unionKeys {α β : Type} (old : List (String × α)) (new : List (String × β)) :
    List String :=
  keysOf old ++ (keysOf new).filter (fun k => ¬ dictContains old k)

theorem dictGet_some_mem_keys {α : Type} {d : List (String × α)} {k : String} {v : α}
    (h : dictGet d k = some v) : k ∈ keysOf d := by
  induction d with
  | nil => simp [dictGet] at h
  | cons p rest ih =>
    obtain ⟨k', v'⟩ := p
    by_cases hk : k' = k
    · simp [keysOf, hk]
    · have h' : dictGet rest k = some v := by simpa [dictGet, hk] using h
      simpa [keysOf] using Or.inr (ih h')

theorem mem_keys_dictGet_isSome {α : Type} {d : List (String × α)} {k : String}
    (h : k ∈ keysOf d) : (dictGet d k).isSome := by
  induction d with
  | nil => simp [keysOf] at h
  | cons p rest ih =>
    obtain ⟨k', v'⟩ := p
    by_cases hk : k' = k
    · simp [dictGet, hk]
    · have h2 : k = k' ∨ k ∈ keysOf rest := List.mem_cons.mp h
      rcases h2 with h2 | h2
      · exact absurd h2.symm hk
      · simpa [dictGet, hk] using ih h2

theorem dictContains_iff_mem_keys {α : Type} {d : List (String × α)} {k : String} :
    dictContains d k = true ↔ k ∈ keysOf d := by
  constructor
  · intro h
    rcases Option.isSome_iff_exists.mp h with ⟨v, hv⟩
    exact dictGet_some_mem_keys hv
  · intro h
    exact mem_keys_dictGet_isSome h

theorem mem_unionKeys {α β : Type} {old : List (String × α)} {new : List (String × β)}
    {k : String} :
    k ∈ unionKeys old new ↔ k ∈ keysOf old ∨ k ∈ keysOf new := by
  simp only [unionKeys, List.mem_append, List.mem_filter]
  constructor
  · rintro (h | ⟨h, _⟩)
    · exact Or.inl h
    · exact Or.inr h
  · rintro (h | h)
    · exact Or.inl h
    · by_cases hc : dictContains old k
      · exact Or.inl (dictContains_iff_mem_keys.mp hc)
      · exact Or.inr ⟨h, by simpa using hc⟩

/-- Deterministic rendering of a list of strings, standing in for
Python's `str(list_of_str)`. -/
def headersRepr (xs : List String) : String :=
  "[" ++ String.intercalate ", " xs ++ "]"

/-- Deterministic rendering of an element snapshot, standing in for
Python's `str(dict)` applied to the element record. -/
def elemRepr (e : ElementSnapshot) : String :=
  "tag: " ++ e.tag ++ ", text: " ++ e.text ++ ", tail: " ++ e.tail

/-- Deterministic rendering of a table snapshot, standing in for
Python's `str(dict)` applied to the table record. -/
def tableRepr (t : TableStruct) : String :=
  "headers: " ++ headersRepr t.headers ++ ", row_count: " ++ toString t.row_count
    ++ ", column_count: " ++ toString t.column_count

/-- Deterministic rendering of one form input record. -/
def inputRepr (i : FormInput) : String :=
  "type: " ++ i.type ++ ", name: " ++ i.name ++ ", id: " ++ i.id
    ++ ", class: " ++ i.classAttr

/-- Deterministic rendering of a list of form inputs, standing in for
Python's `str(list_of_dict)`. -/
def inputsRepr (xs : List FormInput) : String :=
  "[" ++ String.intercalate ", " (xs.map inputRepr) ++ "]"

/-- Deterministic rendering of a form snapshot, standing in for
Python's `str(dict)` applied to the form record. -/
def formRepr (f : FormStruct) : String :=
  "action: " ++ f.action ++ ", method: " ++ f.method
    ++ ", inputs: " ++ inputsRepr f.inputs

/-- Transcription of `HTMLPageDetector._compare_elements`:
a removed pass over the old keys, an added pass over the new keys, then a
text-comparison pass over the old keys. -/
def compare_elements (old_elements new_elements : List (String × ElementSnapshot))
    (timestamp : Nat) : List ChangeDetails :=
  ((keysOf old_elements).filterMap fun xpath =>
    (dictGet old_elements xpath).bind fun old_elem =>
      if dictGet new_elements xpath = none then
        some { change_type := "element_removed", xpath := xpath,
               old_value := some (elemRepr old_elem), new_value := none,
               element_type := old_elem.tag, timestamp := timestamp }
      else none)
  ++ ((keysOf new_elements).filterMap fun xpath =>
    (dictGet new_elements xpath).bind fun new_elem =>
      if dictGet old_elements xpath = none then
        some { change_type := "element_added", xpath := xpath,
               old_value := none, new_value := some (elemRepr new_elem),
               element_type := new_elem.tag, timestamp := timestamp }
      else none)
  ++ ((keysOf old_elements).filterMap fun xpath =>
    (dictGet old_elements xpath).bind fun old_elem =>
      (dictGet new_elements xpath).bind fun new_elem =>
        if old_elem.text ≠ new_elem.text then
          some { change_type := "element_text_changed", xpath := xpath,
                 old_value := some old_elem.text, new_value := some new_elem.text,
                 element_type := old_elem.tag, timestamp := timestamp }
        else none)

/-- Transcription of `HTMLPageDetector._compare_attributes`: for every
path in the union of the two attribute maps, for every attribute name in
the union of the two per-path maps, classify by presence on each side. -/
def compare_attributes (old_attrs new_attrs : List (String × List (String × String)))
    (timestamp : Nat) : List ChangeDetails :=
  (unionKeys old_attrs new_attrs).flatMap fun xpath =>
    let old_attr := (dictGet old_attrs xpath).getD []
    let new_attr := (dictGet new_attrs xpath).getD []
    (unionKeys old_attr new_attr).filterMap fun attr_name =>
      let old_value := dictGet old_attr attr_name
      let new_value := dictGet new_attr attr_name
      if old_value ≠ new_value then
        some { change_type :=
                 if old_value = none then "attribute_added"
                 else if new_value = none then "attribute_removed"
                 else "attribute_modified",
               xpath := xpath ++ "/@" ++ attr_name,
               old_value := old_value, new_value := new_value,
               element_type := "attribute", timestamp := timestamp }
      else none

/-- Transcription of `HTMLPageDetector._compare_tables`: removed pass,
added pass, then a pass over the common paths comparing the header lists
and the column counts (the row counts are not compared). -/
def compare_tables (old_tables new_tables : List (String × TableStruct))
    (timestamp : Nat) : List ChangeDetails :=
  ((keysOf old_tables).filterMap fun xpath =>
    (dictGet old_tables xpath).bind fun old_table =>
      if dictGet new_tables xpath = none then
        some { change_type := "table_removed", xpath := xpath,
               old_value := some (tableRepr old_table), new_value := none,
               element_type := "table", timestamp := timestamp }
      else none)
  ++ ((keysOf new_tables).filterMap fun xpath =>
    (dictGet new_tables xpath).bind fun new_table =>
      if dictGet old_tables xpath = none then
        some { change_type := "table_added", xpath := xpath,
               old_value := none, new_value := some (tableRepr new_table),
               element_type := "table", timestamp := timestamp }
      else none)
  ++ ((keysOf old_tables).flatMap fun xpath =>
    match dictGet old_tables xpath, dictGet new_tables xpath with
    | some old_table, some new_table =>
      (if old_table.headers ≠ new_table.headers then
        [{ change_type := "table_headers_changed", xpath := xpath,
           old_value := some (headersRepr old_table.headers),
           new_value := some (headersRepr new_table.headers),
           element_type := "table", timestamp := timestamp }]
      else [])
      ++ (if old_table.column_count ≠ new_table.column_count then
        [{ change_type := "table_columns_changed", xpath := xpath,
           old_value := some (toString old_table.column_count),
           new_value := some (toString new_table.column_count),
           element_type := "table", timestamp := timestamp }]
      else [])
    | _, _ => [])

/-- Transcription of `HTMLPageDetector._compare_forms`: one pass over the
union of the form paths, classifying by presence and otherwise comparing
the input sequences. -/
def compare_forms (old_forms new_forms : List (String × FormStruct))
    (timestamp : Nat) : List ChangeDetails :=
  (unionKeys old_forms new_forms).filterMap fun xpath =>
    match dictGet old_forms xpath, dictGet new_forms xpath with
    | none, some new_form =>
      some { change_type := "form_added", xpath := xpath,
             old_value := none, new_value := some (formRepr new_form),
             element_type := "form", timestamp := timestamp }
    | some old_form, none =>
      some { change_type := "form_removed", xpath := xpath,
             old_value := some (formRepr old_form), new_value := none,
             element_type := "form", timestamp := timestamp }
    | some old_form, some new_form =>
      if old_form.inputs.length ≠ new_form.inputs.length
          ∨ old_form.inputs ≠ new_form.inputs then
        some { change_type := "form_inputs_changed", xpath := xpath,
               old_value := some (inputsRepr old_form.inputs),
               new_value := some (inputsRepr new_form.inputs),
               element_type := "form", timestamp := timestamp }
      else none
    | none, none => none

/-- Transcription of `HTMLPageDetector.compare_structures`: the four
category passes, concatenated, all stamped with the single `now` taken at
entry. -/
def compare_structures (old_structure new_structure : PageStructure)
    (now : Nat) : List ChangeDetails :=
  compare_elements old_structure.elements new_structure.elements now
  ++ compare_attributes old_structure.attributes new_structure.attributes now
  ++ compare_tables old_structure.tables new_structure.tables now
  ++ compare_forms old_structure.forms new_structure.forms now

/-!
Parsed-document model for `_extract_table_structure` (C8). An `HNode` is
one parsed element: tag, attributes, text, tail, ordered children — the
node shape lxml exposes. The XPath queries the source runs on a table
(`.//th | .//thead//td`, `.//tr`, `.//td | .//th`) are union node-sets
returned in document order, i.e. preorder traversals of the strict
descendants filtered by the query.
-/

inductive HNode where
  | elem (tag : String) (attrib : List (String × String)) (text : Option String)
      (tail : Option String) (children : List HNode)
deriving Repr

def HNode.tag : HNode → String
  | .elem t _ _ _ _ => t

def HNode.text : HNode → Option String
  | .elem _ _ tx _ _ => tx

def HNode.tail : HNode → Option String
  | .elem _ _ _ tl _ => tl

def HNode.children : HNode → List HNode
  | .elem _ _ _ _ ch => ch

mutual
/-- Text content of a node in the lxml sense: its own text followed by,
for each child in order, the child's text content and then the child's
tail. -/
def textContent : HNode → String
  | .elem _ _ tx _ ch => tx.getD "" ++ textContentChildren ch

def textContentChildren : List HNode → String
  | [] => ""
  | c :: rest => textContent c ++ c.tail.getD "" ++ textContentChildren rest
end

mutual
/-- Strict descendants of a node in document (preorder) order: the
node-set the descendant axis `.//` traverses. -/
def descendants : HNode → List HNode
  | .elem _ _ _ _ ch => descendantsList ch

def descendantsList : List HNode → List HNode
  | [] => []
  | c :: rest => c :: (descendants c ++ descendantsList rest)
end

/-- Document-order node-set of the query `.//th | .//thead//td` run on a
table: every `th` descendant, plus every `td` descendant lying below a
`thead` descendant; `under` records whether a `thead` ancestor has been
entered. -/
def headerCells (under : Bool) : List HNode → List HNode
  | [] => []
  | HNode.elem t a tx tl ch :: rest =>
    (if t == "th" || (t == "td" && under) then [HNode.elem t a tx tl ch] else [])
    ++ headerCells (under || t == "thead") ch
    ++ headerCells under rest

/-- Transcription of `HTMLPageDetector._extract_table_structure`: header
texts are trimmed and empty ones dropped; `row_count` counts the `.//tr`
node-set; `column_count` counts the `.//td | .//th` node-set of the first
row, or is 0 when there is no row. -/
def extract_table_structure (table : HNode) : TableStruct :=
  let headerNodes := headerCells false table.children
  let headers := headerNodes.filterMap fun h =>
    let s := (textContent h).trim
    if s = "" then none else some s
  let rows := (descendants table).filter fun r => r.tag == "tr"
  let column_count :=
    match rows with
    | [] => 0
    | firstRow :: _ =>
      ((descendants firstRow).filter fun c => c.tag == "td" || c.tag == "th").length
  { headers := headers, row_count := rows.length, column_count := column_count }

/-- Modelled from the spec: every strict descendant, in document order,
paired with the flag saying whether it lies under a header-section
(`thead`) node — the ancestry information the spec's header-cell and
body-row clauses refer to. -/
def descendantsWithHeaderFlag (under : Bool) : List HNode → List (HNode × Bool)
  | [] => []
  | HNode.elem t a tx tl ch :: rest =>
    (HNode.elem t a tx tl ch, under)
      :: (descendantsWithHeaderFlag (under || t == "thead") ch
          ++ descendantsWithHeaderFlag under rest)

mutual
/-- Modelled from the spec: the body rows of a table — the `tr` nodes of
the table itself (rows of nested tables excluded) that do not lie under a
header-section node. -/
def bodyRowsSpec (under : Bool) : List HNode → List HNode
  | [] => []
  | c :: rest => bodyRowsSpecNode under c ++ bodyRowsSpec under rest

/-- Modelled from the spec: body rows contributed by one node — none
when the node is a nested table; otherwise the node itself when it is a
non-header row, plus the body rows of its subtree. -/
def bodyRowsSpecNode (under : Bool) : HNode → List HNode
  | HNode.elem t a tx tl ch =>
    if t == "table" then []
    else
      (if t == "tr" && !under then [HNode.elem t a tx tl ch] else [])
      ++ bodyRowsSpec (under || t == "thead") ch
end

/-- Modelled from the spec: the cell-equivalent children (not deeper
descendants) of a row. -/
def cellChildren (row : HNode) : List HNode :=
  row.children.filter fun c => c.tag == "td" || c.tag == "th"

/-!
Scan orchestration model for `HTMLPageDetector.scan_url`. External
collaborators are oracles carried in a `ScanEnv`:

* `fetchRes` — the value `fetch_page` returns (`none` models the
  `requests.RequestException` path, which `fetch_page` converts to
  `None`);
* `extractRes` — the lxml parse-and-traverse inside the `try` block of
  `extract_xpath_structure`: `none` models any exception raised there
  (unparseable markup), `some s` the structure built from the tree;
* `hashF` — `hashlib.md5(...).hexdigest()`;
* `lastScan` — `DatabaseManager.get_last_scan(url)`: the stored hash and
  the stored serialized structure, if a prior row exists;
* `deserialize` — `json.loads` on the stored structure text: `none`
  models `json.JSONDecodeError`;
* `serialize` — `json.dumps` on the current structure;
* `saveOk` — whether `DatabaseManager.save_scan_result` commits; when it
  is false the database raises, `scan_url` has no handler for it, and the
  exception propagates to the caller (`ScanResult.error`);
* `emailEnabled`, `recipients` — the notifier configuration;
  `EmailNotifier.send_alert` itself catches all of its exceptions, so
  sending is an event, never a failure.

The observable behaviour of one scan is the ordered event trace plus the
returned value.
-/

/-- Observable side effects of one `scan_url` run, in program order. -/
inductive Event where
  | extracted
  | diffInvoked
  | emailSent (recipient : String)
  | saved (url : String) (html_hash : String) (xpath_structure : String)
      (changes_detected : Nat)
deriving DecidableEq, Repr

/-- Outcome seen by the caller of `scan_url`: the boolean return value, or
a propagated exception. -/
inductive ScanResult where
  | ok (changed : Bool)
  | error
deriving DecidableEq, Repr

/-- Environment of oracles for one `scan_url` run. -/
structure ScanEnv where
  fetchRes : Option String
  extractRes : String → Option PageStructure
  hashF : String → String
  lastScan : Option (String × String)
  deserialize : String → Option PageStructure
  serialize : PageStructure → String
  saveOk : Bool
  emailEnabled : Bool
  recipients : List String
  now : Nat

/-- The empty dictionary `\x7b\x7d` that the `except` branch of
`extract_xpath_structure` returns, viewed as a `PageStructure` (every
category read through `.get(..., \x7b\x7d)` is empty). -/
def emptyStructure : PageStructure :=
  { elements := [], attributes := [], tables := [], forms := [] }

/-- Transcription of `HTMLPageDetector.extract_xpath_structure`: the
whole body is wrapped in `try`/`except`, and the `except` branch returns
the empty dictionary — the function never raises. -/
def extract_xpath_structure (extractOracle : String → Option PageStructure)
    (html_content : String) : PageStructure :=
  match extractOracle html_content with
  | some structureVal => structureVal
  | none => emptyStructure

/-- History-comparison step of `scan_url` (the `if last_scan:` block):
given the hash and structure of the current fetch, produce the changeset
together with the events the block emits (the diff invocation and the
alert emails, in program order). A missing prior record, an equal hash,
or a stored structure that fails to deserialize (`json.JSONDecodeError`,
caught and logged) all leave the changeset empty and emit nothing. -/
def scan_changes_events (env : ScanEnv) (current_hash : String)
    (current_structure : PageStructure) : List ChangeDetails × List Event :=
  match env.lastScan with
  | some (last_hash, last_structure_json) =>
    if current_hash ≠ last_hash then
      match env.deserialize last_structure_json with
      | some last_structure =>
        let cs := compare_structures last_structure current_structure env.now
        let emailEvents :=
          if cs ≠ [] ∧ env.emailEnabled then
            env.recipients.map Event.emailSent
          else []
        (cs, Event.diffInvoked :: emailEvents)
      | none => ([], [])
    else ([], [])
  | none => ([], [])

/-- Transcription of `HTMLPageDetector.scan_url`, returning the event
trace and the caller-visible outcome. `if not current_html` is Python
truthiness: both `None` and the empty string take the early-return path.
The history-comparison block (`scan_changes_events`) runs first — so any
alert emails are sent inside it — and `save_scan_result` runs last; when
the save raises, nothing later catches it (`ScanResult.error`). -/
def scan_url (env : ScanEnv) (url : String) : List Event × ScanResult :=
  match env.fetchRes with
  | none => ([], ScanResult.ok false)
  | some current_html =>
    if current_html = "" then ([], ScanResult.ok false)
    else
      let current_hash := env.hashF current_html
      let current_structure := extract_xpath_structure env.extractRes current_html
      let changesAndEvents := scan_changes_events env current_hash current_structure
      let changes := changesAndEvents.1
      let midEvents := changesAndEvents.2
      if env.saveOk then
        (Event.extracted :: midEvents
           ++ [Event.saved url current_hash (env.serialize current_structure)
                 changes.length],
         ScanResult.ok (changes.length > 0))
      else
        (Event.extracted :: midEvents, ScanResult.error)

/-- Recognizer for persistence events. -/
def isSavedEvent : Event → Bool
  | .saved _ _ _ _ => true
  | _ => false

/-- Recognizer for notification events. -/
def isEmailEvent : Event → Bool
  | .emailSent _ => true
  | _ => false

/-- Serialized structure carried by a persistence event, when the event
is one. -/
def savedStructureOf : Event → Option String
  | .saved _ _ s _ => some s
  | _ => none

/-- Formalization of the C2 ordering property over a trace: every
persistence event precedes every notification event. -/
def persistenceBeforeNotification (tr : List Event) : Prop :=
  ∀ i j (hi : i < tr.length) (hj : j < tr.length),
    isEmailEvent (tr.get ⟨i, hi⟩) = true → isSavedEvent (tr.get ⟨j, hj⟩) = true →
      j < i

theorem isSavedEvent_of_mem_map_email {rs : List String} {e : Event}
    (he : e ∈ rs.map Event.emailSent) : isSavedEvent e = false := by
  rcases List.mem_map.mp he with ⟨r, _, rfl⟩
  rfl

theorem scan_changes_events_baseline (env : ScanEnv) (h : String) (s : PageStructure)
    (hls : env.lastScan = none) : scan_changes_events env h s = ([], []) := by
  simp [scan_changes_events, hls]

theorem scan_changes_events_hash_eq (env : ScanEnv) (h : String) (s : PageStructure)
    (lh lj : String) (hls : env.lastScan = some (lh, lj)) (hh : h = lh) :
    scan_changes_events env h s = ([], []) := by
  simp [scan_changes_events, hls, hh]

theorem scan_changes_events_deser_none (env : ScanEnv) (h : String) (s : PageStructure)
    (lh lj : String) (hls : env.lastScan = some (lh, lj)) (hh : h ≠ lh)
    (hd : env.deserialize lj = none) :
    scan_changes_events env h s = ([], []) := by
  simp [scan_changes_events, hls, hh, hd]

theorem scan_changes_events_no_saved (env : ScanEnv) (h : String) (s : PageStructure)
    (e : Event) (he : e ∈ (scan_changes_events env h s).2) : isSavedEvent e = false := by
  unfold scan_changes_events at he
  cases hls : env.lastScan with
  | none => rw [hls] at he; simp at he
  | some p =>
    obtain ⟨lh, lj⟩ := p
    rw [hls] at he
    by_cases hh : h = lh
    · simp [hh] at he
    · simp only [ne_eq, hh, not_false_iff, if_true] at he
      cases hd : env.deserialize lj with
      | none => rw [hd] at he; simp at he
      | some last_structure =>
        rw [hd] at he
        simp only [List.mem_cons] at he
        rcases he with rfl | he
        · rfl
        · by_cases hcs :
              compare_structures last_structure s env.now ≠ [] ∧ env.emailEnabled
          · simp only [hcs, if_true] at he
            exact isSavedEvent_of_mem_map_email he
          · simp [hcs] at he

/-- C10: a fetch that succeeds with an empty body is treated exactly like
a fetch failure — `scan_url` returns `False`, performs no extraction,
writes no scan record and sends no notification. -/
theorem C10_empty_body_like_fetch_failure (env : ScanEnv) (url : String) :
    scan_url { env with fetchRes := some "" } url
        = scan_url { env with fetchRes := none } url
      ∧ scan_url { env with fetchRes := none } url = ([], ScanResult.ok false) := by
  constructor <;> simp [scan_url]

/-- C5: when a prior record exists and its stored hash equals the current
hash, the diff is never invoked (no `diffInvoked` event), the changeset
is empty, and exactly one scan record is written, with change count 0. -/
theorem C5_equal_hash_skips_diff (env : ScanEnv) (url html lh lj : String)
    (hf : env.fetchRes = some html) (hne : html ≠ "")
    (hls : env.lastScan = some (lh, lj)) (hh : env.hashF html = lh)
    (hsave : env.saveOk = true) :
    scan_url env url
      = ([Event.extracted,
          Event.saved url lh
            (env.serialize (extract_xpath_structure env.extractRes html)) 0],
         ScanResult.ok false) := by
  have hmid := scan_changes_events_hash_eq env (env.hashF html)
    (extract_xpath_structure env.extractRes html) lh lj hls hh
  rw [hh] at hmid
  simp [scan_url, hf, hne, hsave, hmid, hh]

def envC5 : ScanEnv :=
  { fetchRes := some "<html><body><p>x</p></body></html>"
  , extractRes := fun _ => some emptyStructure
  , hashF := fun _ => "same-hash"
  , lastScan := some ("same-hash", "stored-structure")
  , deserialize := fun _ => none
  , serialize := fun _ => "current-serialized"
  , saveOk := true
  , emailEnabled := true
  , recipients := ["alerts@example.com"]
  , now := 0 }

theorem C5_witness :
    scan_url envC5 "http://w5"
      = ([Event.extracted, Event.saved "http://w5" "same-hash" "current-serialized" 0],
         ScanResult.ok false) :=
  C5_equal_hash_skips_diff envC5 "http://w5" "<html><body><p>x</p></body></html>"
    "same-hash" "stored-structure" rfl (by decide) rfl rfl rfl

/-- C4: when the prior record's hash differs but the stored structure
fails to deserialize, the scan does not crash: diffing is skipped (no
`diffInvoked` event), the changeset is empty, exactly one scan record is
written for the current structure, and the scan returns normally. -/
theorem C4_corrupt_prior_structure_graceful (env : ScanEnv) (url html lh lj : String)
    (hf : env.fetchRes = some html) (hne : html ≠ "")
    (hls : env.lastScan = some (lh, lj)) (hh : env.hashF html ≠ lh)
    (hd : env.deserialize lj = none) (hsave : env.saveOk = true) :
    scan_url env url
      = ([Event.extracted,
          Event.saved url (env.hashF html)
            (env.serialize (extract_xpath_structure env.extractRes html)) 0],
         ScanResult.ok false) := by
  have hmid := scan_changes_events_deser_none env (env.hashF html)
    (extract_xpath_structure env.extractRes html) lh lj hls hh hd
  simp [scan_url, hf, hne, hsave, hmid]

def envC4 : ScanEnv :=
  { fetchRes := some "<html><body><p>x</p></body></html>"
  , extractRes := fun _ => some emptyStructure
  , hashF := fun _ => "new-hash"
  , lastScan := some ("old-hash", "corrupted-garbage")
  , deserialize := fun _ => none
  , serialize := fun _ => "current-serialized"
  , saveOk := true
  , emailEnabled := true
  , recipients := ["alerts@example.com"]
  , now := 0 }

theorem C4_witness :
    scan_url envC4 "http://w4"
      = ([Event.extracted, Event.saved "http://w4" "new-hash" "current-serialized" 0],
         ScanResult.ok false) :=
  C4_corrupt_prior_structure_graceful envC4 "http://w4"
    "<html><body><p>x</p></body></html>" "old-hash" "corrupted-garbage"
    rfl (by decide) rfl (by decide) rfl rfl

/-- C3: when fetch and extraction succeed but the store write fails, the
failure propagates to the caller (no boolean is returned) and no scan
record is persisted. -/
theorem C3_store_failure_reported (env : ScanEnv) (url html : String)
    (st : PageStructure) (hf : env.fetchRes = some html) (hne : html ≠ "")
    (hex : env.extractRes html = some st) (hsave : env.saveOk = false) :
    (scan_url env url).2 = ScanResult.error
      ∧ ∀ e ∈ (scan_url env url).1, isSavedEvent e = false := by
  constructor
  · simp [scan_url, hf, hne, hsave]
  · intro e he
    simp only [scan_url, hf, hne, hsave, if_false, if_neg, Bool.false_eq_true,
      List.mem_cons] at he
    rcases he with rfl | he
    · rfl
    · exact scan_changes_events_no_saved env _ _ e he

def envC3 : ScanEnv :=
  { fetchRes := some "<html><body><p>x</p></body></html>"
  , extractRes := fun _ => some emptyStructure
  , hashF := fun _ => "new-hash"
  , lastScan := none
  , deserialize := fun _ => none
  , serialize := fun _ => "current-serialized"
  , saveOk := false
  , emailEnabled := true
  , recipients := ["alerts@example.com"]
  , now := 0 }

theorem C3_witness :
    (scan_url envC3 "http://w3").2 = ScanResult.error
      ∧ ∀ e ∈ (scan_url envC3 "http://w3").1, isSavedEvent e = false :=
  C3_store_failure_reported envC3 "http://w3" "<html><body><p>x</p></body></html>"
    emptyStructure rfl (by decide) rfl rfl

theorem compare_elements_self (d : List (String × ElementSnapshot)) (t : Nat) :
    compare_elements d d t = [] := by
  unfold compare_elements
  have hsome : ∀ x ∈ keysOf d, ∃ v, dictGet d x = some v := by
    intro x hx
    exact Option.isSome_iff_exists.mp (mem_keys_dictGet_isSome hx)
  refine List.append_eq_nil.mpr ⟨List.append_eq_nil.mpr ⟨?_, ?_⟩, ?_⟩ <;>
    refine List.filterMap_eq_nil_iff.mpr ?_ <;> intro x hx <;>
    obtain ⟨v, hv⟩ := hsome x hx <;> simp [hv]

theorem compare_attributes_self (d : List (String × List (String × String))) (t : Nat) :
    compare_attributes d d t = [] := by
  unfold compare_attributes
  refine List.flatMap_eq_nil_iff.mpr ?_
  intro x hx
  refine List.filterMap_eq_nil_iff.mpr ?_
  intro a ha
  simp

theorem compare_tables_self (d : List (String × TableStruct)) (t : Nat) :
    compare_tables d d t = [] := by
  unfold compare_tables
  have hsome : ∀ x ∈ keysOf d, ∃ v, dictGet d x = some v := by
    intro x hx
    exact Option.isSome_iff_exists.mp (mem_keys_dictGet_isSome hx)
  refine List.append_eq_nil.mpr ⟨List.append_eq_nil.mpr ⟨?_, ?_⟩, ?_⟩
  · refine List.filterMap_eq_nil_iff.mpr ?_
    intro x hx
    obtain ⟨v, hv⟩ := hsome x hx
    simp [hv]
  · refine List.filterMap_eq_nil_iff.mpr ?_
    intro x hx
    obtain ⟨v, hv⟩ := hsome x hx
    simp [hv]
  · refine List.flatMap_eq_nil_iff.mpr ?_
    intro x hx
    obtain ⟨v, hv⟩ := hsome x hx
    simp [hv]

theorem compare_forms_self (d : List (String × FormStruct)) (t : Nat) :
    compare_forms d d t = [] := by
  unfold compare_forms
  refine List.filterMap_eq_nil_iff.mpr ?_
  intro x hx
  cases hv : dictGet d x with
  | none => simp [hv]
  | some f => simp [hv]

/-- C6: diffing a structure against itself yields no changes:
`compare_structures A A now = []` for every `A`. -/
theorem C6_diff_self_empty (A : PageStructure) (now : Nat) :
    compare_structures A A now = [] := by
  unfold compare_structures
  rw [compare_elements_self, compare_attributes_self, compare_tables_self,
    compare_forms_self]
  rfl

def envC1 : ScanEnv :=
  { fetchRes := some "<<<not parseable markup"
  , extractRes := fun _ => none
  , hashF := fun _ => "bad-hash"
  , lastScan := none
  , deserialize := fun _ => none
  , serialize := fun s => if s = emptyStructure then "empty-json" else "nonempty-json"
  , saveOk := true
  , emailEnabled := false
  , recipients := []
  , now := 0 }

/-- C1 counterexample: on input the parser cannot handle (the extraction
oracle reports a parse exception), `extract_xpath_structure` returns the
empty dictionary instead of raising, and `scan_url` does not abort: it
persists a scan record (for the empty structure) and returns the normal
boolean `False`. -/
theorem C1_counterexample :
    extract_xpath_structure envC1.extractRes "<<<not parseable markup"
        = emptyStructure
      ∧ scan_url envC1 "http://c1"
          = ([Event.extracted, Event.saved "http://c1" "bad-hash" "empty-json" 0],
             ScanResult.ok false) := by
  constructor
  · rfl
  · rfl

theorem filterMap_savedStructureOf_emailMap (rs : List String) :
    (rs.map Event.emailSent).filterMap savedStructureOf = [] := by
  induction rs with
  | nil => rfl
  | cons r rest ih => simpa [savedStructureOf] using ih

theorem scan_changes_events_no_savedStructure (env : ScanEnv) (h : String)
    (s : PageStructure) :
    (scan_changes_events env h s).2.filterMap savedStructureOf = [] := by
  refine List.filterMap_eq_nil_iff.mpr ?_
  intro e he
  have := scan_changes_events_no_saved env h s e he
  cases e <;> simp [savedStructureOf] <;> simp [isSavedEvent] at this

/-- C1 amended: on unparseable input `extract_xpath_structure` catches
the parse exception and returns the empty structure; `scan_url` then
proceeds rather than aborting — the caller gets a normal boolean result
(never a propagated error) and exactly one scan record is written, whose
serialized structure is that of the empty structure. -/
theorem C1_amended_unparseable_scan_persists (env : ScanEnv) (url html : String)
    (hf : env.fetchRes = some html) (hne : html ≠ "")
    (hex : env.extractRes html = none) (hsave : env.saveOk = true) :
    extract_xpath_structure env.extractRes html = emptyStructure
      ∧ (scan_url env url).2 ≠ ScanResult.error
      ∧ (scan_url env url).1.filterMap savedStructureOf
          = [env.serialize emptyStructure] := by
  have hempty : extract_xpath_structure env.extractRes html = emptyStructure := by
    simp [extract_xpath_structure, hex]
  refine ⟨hempty, ?_, ?_⟩
  · simp [scan_url, hf, hne, hsave]
  · simp only [scan_url, hf, hne, if_neg, hsave, if_true]
    simp [hempty, List.filterMap_append, scan_changes_events_no_savedStructure,
      savedStructureOf]

theorem C1_witness :
    extract_xpath_structure envC1.extractRes "<<<not parseable markup"
        = emptyStructure
      ∧ (scan_url envC1 "http://c1").2 ≠ ScanResult.error
      ∧ (scan_url envC1 "http://c1").1.filterMap savedStructureOf = ["empty-json"] :=
  C1_amended_unparseable_scan_persists envC1 "http://c1" "<<<not parseable markup"
    rfl (by decide) rfl rfl

def envC2 : ScanEnv :=
  { fetchRes := some "<html><body></body></html>"
  , extractRes := fun _ => some emptyStructure
  , hashF := fun _ => "hash-new"
  , lastScan := some ("hash-old", "stored-json")
  , deserialize := fun _ => some
      { elements := [("/html/body/p[1]", { tag := "p", text := "Hello", tail := "" })]
      , attributes := [], tables := [], forms := [] }
  , serialize := fun _ => "serialized-current"
  , saveOk := true
  , emailEnabled := true
  , recipients := ["alerts@example.com"]
  , now := 0 }

/-- C2 counterexample: in a scan with a changed hash, a nonempty
changeset and a configured notifier, `scan_url` sends the alert email
before writing the scan record, so persistence does not happen before
notification. -/
theorem C2_counterexample :
    ¬ persistenceBeforeNotification (scan_url envC2 "http://c2").1 := by
  intro h
  have h23 := h 2 3 (by decide) (by decide) (by decide) (by decide)
  omega

theorem emails_precede_saves (tr : List Event)
    (hsplit : ∃ l₁ l₂, tr = l₁ ++ l₂ ∧ (∀ e ∈ l₁, isSavedEvent e = false)
      ∧ (∀ e ∈ l₂, isEmailEvent e = false))
    (i j : Nat) (hi : i < tr.length) (hj : j < tr.length)
    (hei : isEmailEvent (tr.get ⟨i, hi⟩) = true)
    (hsj : isSavedEvent (tr.get ⟨j, hj⟩) = true) : i < j := by
  obtain ⟨l₁, l₂, rfl, h₁, h₂⟩ := hsplit
  have hlen : (l₁ ++ l₂).length = l₁.length + l₂.length := List.length_append l₁ l₂
  have hil : i < l₁.length := by
    by_contra hcon
    push_neg at hcon
    have hlt : i - l₁.length < l₂.length := by omega
    have hget : (l₁ ++ l₂).get ⟨i, hi⟩ = l₂.get ⟨i - l₁.length, hlt⟩ := by
      simp only [List.get_eq_getElem]
      exact List.getElem_append_right hcon
    have hmem : l₂.get ⟨i - l₁.length, hlt⟩ ∈ l₂ := List.get_mem _ _ hlt
    rw [hget, h₂ _ hmem] at hei
    exact Bool.noConfusion hei
  have hjl : l₁.length ≤ j := by
    by_contra hcon
    push_neg at hcon
    have hget : (l₁ ++ l₂).get ⟨j, hj⟩ = l₁.get ⟨j, hcon⟩ := by
      simp only [List.get_eq_getElem]
      exact List.getElem_append_left hcon
    have hmem : l₁.get ⟨j, hcon⟩ ∈ l₁ := List.get_mem _ _ hcon
    rw [hget, h₁ _ hmem] at hsj
    exact Bool.noConfusion hsj
  omega

/-- C2 amended: in every scan, any notification delivery happens before
the persistence step — the scan record write is the last event, so every
alert-email event strictly precedes every save event in the trace. -/
theorem C2_amended_notification_precedes_persistence (env : ScanEnv) (url : String)
    (i j : Nat) (hi : i < (scan_url env url).1.length)
    (hj : j < (scan_url env url).1.length)
    (hei : isEmailEvent ((scan_url env url).1.get ⟨i, hi⟩) = true)
    (hsj : isSavedEvent ((scan_url env url).1.get ⟨j, hj⟩) = true) : i < j := by
  refine emails_precede_saves _ ?_ i j hi hj hei hsj
  cases hf : env.fetchRes with
  | none => exact ⟨[], [], by simp [scan_url, hf], by simp, by simp⟩
  | some html =>
    by_cases hne : html = ""
    · exact ⟨[], [], by simp [scan_url, hf, hne], by simp, by simp⟩
    · have hnotsaved : ∀ e ∈ Event.extracted ::
          (scan_changes_events env (env.hashF html)
            (extract_xpath_structure env.extractRes html)).2,
          isSavedEvent e = false := by
        intro e he
        rcases List.mem_cons.mp he with rfl | he
        · rfl
        · exact scan_changes_events_no_saved env _ _ e he
      cases hsave : env.saveOk with
      | false =>
        refine ⟨Event.extracted :: (scan_changes_events env (env.hashF html)
          (extract_xpath_structure env.extractRes html)).2, [], ?_, hnotsaved, by simp⟩
        simp [scan_url, hf, hne, hsave]
      | true =>
        refine ⟨Event.extracted :: (scan_changes_events env (env.hashF html)
          (extract_xpath_structure env.extractRes html)).2,
          [Event.saved url (env.hashF html)
            (env.serialize (extract_xpath_structure env.extractRes html))
            (scan_changes_events env (env.hashF html)
              (extract_xpath_structure env.extractRes html)).1.length],
          ?_, hnotsaved, ?_⟩
        · simp [scan_url, hf, hne, hsave]
        · intro e he
          rcases List.mem_singleton.mp he with rfl
          rfl

theorem C2_witness :
    (scan_url envC2 "http://c2").1.drop 2
        = [Event.emailSent "alerts@example.com",
           Event.saved "http://c2" "hash-new" "serialized-current" 1]
      ∧ (2 : Nat) < 3 :=
  ⟨by decide,
   C2_amended_notification_precedes_persistence envC2 "http://c2" 2 3
     (by decide) (by decide) (by decide) (by decide)⟩

theorem mem_compare_elements_iff {o n : List (String × ElementSnapshot)} {t : Nat}
    {c : ChangeDetails} :
    c ∈ compare_elements o n t ↔
      (∃ x e, dictGet o x = some e ∧ dictGet n x = none ∧
        c = { change_type := "element_removed", xpath := x,
              old_value := some (elemRepr e), new_value := none,
              element_type := e.tag, timestamp := t })
      ∨ (∃ x e, dictGet n x = some e ∧ dictGet o x = none ∧
        c = { change_type := "element_added", xpath := x, old_value := none,
              new_value := some (elemRepr e), element_type := e.tag, timestamp := t })
      ∨ (∃ x eo en, dictGet o x = some eo ∧ dictGet n x = some en ∧
          eo.text ≠ en.text ∧
        c = { change_type := "element_text_changed", xpath := x,
              old_value := some eo.text, new_value := some en.text,
              element_type := eo.tag, timestamp := t }) := by
  constructor
  · intro h
    rcases List.mem_append.mp h with h | h
    · rcases List.mem_append.mp h with h | h
      · rcases List.mem_filterMap.mp h with ⟨x, hx, hfx⟩
        rcases Option.bind_eq_some.mp hfx with ⟨e, he, hif⟩
        by_cases hn : dictGet n x = none
        · rw [if_pos hn] at hif
          exact Or.inl ⟨x, e, he, hn, (Option.some.inj hif).symm⟩
        · rw [if_neg hn] at hif
          exact absurd hif (by simp)
      · rcases List.mem_filterMap.mp h with ⟨x, hx, hfx⟩
        rcases Option.bind_eq_some.mp hfx with ⟨e, he, hif⟩
        by_cases ho : dictGet o x = none
        · rw [if_pos ho] at hif
          exact Or.inr (Or.inl ⟨x, e, he, ho, (Option.some.inj hif).symm⟩)
        · rw [if_neg ho] at hif
          exact absurd hif (by simp)
    · rcases List.mem_filterMap.mp h with ⟨x, hx, hfx⟩
      rcases Option.bind_eq_some.mp hfx with ⟨eo, heo, hfx2⟩
      rcases Option.bind_eq_some.mp hfx2 with ⟨en, hen, hif⟩
      by_cases hne : eo.text = en.text
      · rw [if_neg (by simpa using hne)] at hif
        exact absurd hif (by simp)
      · rw [if_pos (by simpa using hne)] at hif
        exact Or.inr (Or.inr ⟨x, eo, en, heo, hen, hne, (Option.some.inj hif).symm⟩)
  · rintro (⟨x, e, he, hn, rfl⟩ | ⟨x, e, he, ho, rfl⟩ | ⟨x, eo, en, heo, hen, hne, rfl⟩)
    · refine List.mem_append.mpr (Or.inl (List.mem_append.mpr (Or.inl ?_)))
      refine List.mem_filterMap.mpr ⟨x, dictGet_some_mem_keys he, ?_⟩
      rw [he]
      simp [hn]
    · refine List.mem_append.mpr (Or.inl (List.mem_append.mpr (Or.inr ?_)))
      refine List.mem_filterMap.mpr ⟨x, dictGet_some_mem_keys he, ?_⟩
      rw [he]
      simp [ho]
    · refine List.mem_append.mpr (Or.inr ?_)
      refine List.mem_filterMap.mpr ⟨x, dictGet_some_mem_keys heo, ?_⟩
      rw [heo]
      simp only [Option.some_bind]
      rw [hen]
      simp [hne]

theorem mem_compare_tables_iff {o n : List (String × TableStruct)} {t : Nat}
    {c : ChangeDetails} :
    c ∈ compare_tables o n t ↔
      (∃ x v, dictGet o x = some v ∧ dictGet n x = none ∧
        c = { change_type := "table_removed", xpath := x,
              old_value := some (tableRepr v), new_value := none,
              element_type := "table", timestamp := t })
      ∨ (∃ x v, dictGet n x = some v ∧ dictGet o x = none ∧
        c = { change_type := "table_added", xpath := x, old_value := none,
              new_value := some (tableRepr v), element_type := "table",
              timestamp := t })
      ∨ (∃ x vo vn, dictGet o x = some vo ∧ dictGet n x = some vn ∧
          vo.headers ≠ vn.headers ∧
        c = { change_type := "table_headers_changed", xpath := x,
              old_value := some (headersRepr vo.headers),
              new_value := some (headersRepr vn.headers),
              element_type := "table", timestamp := t })
      ∨ (∃ x vo vn, dictGet o x = some vo ∧ dictGet n x = some vn ∧
          vo.column_count ≠ vn.column_count ∧
        c = { change_type := "table_columns_changed", xpath := x,
              old_value := some (toString vo.column_count),
              new_value := some (toString vn.column_count),
              element_type := "table", timestamp := t }) := by
  constructor
  · intro h
    rcases List.mem_append.mp h with h | h
    · rcases List.mem_append.mp h with h | h
      · rcases List.mem_filterMap.mp h with ⟨x, hx, hfx⟩
        rcases Option.bind_eq_some.mp hfx with ⟨v, hv, hif⟩
        by_cases hn : dictGet n x = none
        · rw [if_pos hn] at hif
          exact Or.inl ⟨x, v, hv, hn, (Option.some.inj hif).symm⟩
        · rw [if_neg hn] at hif
          exact absurd hif (by simp)
      · rcases List.mem_filterMap.mp h with ⟨x, hx, hfx⟩
        rcases Option.bind_eq_some.mp hfx with ⟨v, hv, hif⟩
        by_cases ho : dictGet o x = none
        · rw [if_pos ho] at hif
          exact Or.inr (Or.inl ⟨x, v, hv, ho, (Option.some.inj hif).symm⟩)
        · rw [if_neg ho] at hif
          exact absurd hif (by simp)
    · rcases List.mem_flatMap.mp h with ⟨x, hx, hcx⟩
      cases ho : dictGet o x with
      | none => rw [ho] at hcx; simp at hcx
      | some vo =>
        cases hn : dictGet n x with
        | none => rw [ho, hn] at hcx; simp at hcx
        | some vn =>
          rw [ho, hn] at hcx
          rcases List.mem_append.mp hcx with hcx | hcx
          · by_cases hhd : vo.headers = vn.headers
            · rw [if_neg (by simpa using hhd)] at hcx
              simp at hcx
            · rw [if_pos (by simpa using hhd)] at hcx
              rcases List.mem_singleton.mp hcx with rfl
              exact Or.inr (Or.inr (Or.inl ⟨x, vo, vn, ho, hn, hhd, rfl⟩))
          · by_cases hcc : vo.column_count = vn.column_count
            · rw [if_neg (by simpa using hcc)] at hcx
              simp at hcx
            · rw [if_pos (by simpa using hcc)] at hcx
              rcases List.mem_singleton.mp hcx with rfl
              exact Or.inr (Or.inr (Or.inr ⟨x, vo, vn, ho, hn, hcc, rfl⟩))
  · rintro (⟨x, v, hv, hn, rfl⟩ | ⟨x, v, hv, ho, rfl⟩
      | ⟨x, vo, vn, ho, hn, hhd, rfl⟩ | ⟨x, vo, vn, ho, hn, hcc, rfl⟩)
    · refine List.mem_append.mpr (Or.inl (List.mem_append.mpr (Or.inl ?_)))
      refine List.mem_filterMap.mpr ⟨x, dictGet_some_mem_keys hv, ?_⟩
      rw [hv]
      simp [hn]
    · refine List.mem_append.mpr (Or.inl (List.mem_append.mpr (Or.inr ?_)))
      refine List.mem_filterMap.mpr ⟨x, dictGet_some_mem_keys hv, ?_⟩
      rw [hv]
      simp [ho]
    · refine List.mem_append.mpr (Or.inr ?_)
      refine List.mem_flatMap.mpr ⟨x, dictGet_some_mem_keys ho, ?_⟩
      rw [ho, hn]
      refine List.mem_append.mpr (Or.inl ?_)
      rw [if_pos (by simpa using hhd)]
      exact List.mem_singleton.mpr rfl
    · refine List.mem_append.mpr (Or.inr ?_)
      refine List.mem_flatMap.mpr ⟨x, dictGet_some_mem_keys ho, ?_⟩
      rw [ho, hn]
      refine List.mem_append.mpr (Or.inr ?_)
      rw [if_pos (by simpa using hcc)]
      exact List.mem_singleton.mpr rfl

theorem mem_compare_attributes_iff
    {o n : List (String × List (String × String))} {t : Nat} {c : ChangeDetails} :
    c ∈ compare_attributes o n t ↔
      ∃ x a, (x ∈ keysOf o ∨ x ∈ keysOf n)
        ∧ (a ∈ keysOf ((dictGet o x).getD []) ∨ a ∈ keysOf ((dictGet n x).getD []))
        ∧ dictGet ((dictGet o x).getD []) a ≠ dictGet ((dictGet n x).getD []) a
        ∧ c = { change_type :=
                  if dictGet ((dictGet o x).getD []) a = none then "attribute_added"
                  else if dictGet ((dictGet n x).getD []) a = none then
                    "attribute_removed"
                  else "attribute_modified",
                xpath := x ++ "/@" ++ a,
                old_value := dictGet ((dictGet o x).getD []) a,
                new_value := dictGet ((dictGet n x).getD []) a,
                element_type := "attribute", timestamp := t } := by
  constructor
  · intro h
    rcases List.mem_flatMap.mp h with ⟨x, hx, hin⟩
    simp only at hin
    rcases List.mem_filterMap.mp hin with ⟨a, ha, hfa⟩
    by_cases heq : dictGet ((dictGet o x).getD []) a = dictGet ((dictGet n x).getD []) a
    · rw [if_neg (by simpa using heq)] at hfa
      exact absurd hfa (by simp)
    · rw [if_pos (by simpa using heq)] at hfa
      exact ⟨x, a, mem_unionKeys.mp hx, mem_unionKeys.mp ha, heq,
        (Option.some.inj hfa).symm⟩
  · rintro ⟨x, a, hx, ha, hne, rfl⟩
    refine List.mem_flatMap.mpr ⟨x, mem_unionKeys.mpr hx, ?_⟩
    simp only
    refine List.mem_filterMap.mpr ⟨a, mem_unionKeys.mpr ha, ?_⟩
    rw [if_pos (by simpa using hne)]

theorem mem_compare_forms_iff {o n : List (String × FormStruct)} {t : Nat}
    {c : ChangeDetails} :
    c ∈ compare_forms o n t ↔
      (∃ x f, dictGet o x = none ∧ dictGet n x = some f ∧
        c = { change_type := "form_added", xpath := x, old_value := none,
              new_value := some (formRepr f), element_type := "form",
              timestamp := t })
      ∨ (∃ x f, dictGet o x = some f ∧ dictGet n x = none ∧
        c = { change_type := "form_removed", xpath := x,
              old_value := some (formRepr f), new_value := none,
              element_type := "form", timestamp := t })
      ∨ (∃ x fo fn, dictGet o x = some fo ∧ dictGet n x = some fn
          ∧ (fo.inputs.length ≠ fn.inputs.length ∨ fo.inputs ≠ fn.inputs)
          ∧ c = { change_type := "form_inputs_changed", xpath := x,
                  old_value := some (inputsRepr fo.inputs),
                  new_value := some (inputsRepr fn.inputs),
                  element_type := "form", timestamp := t }) := by
  constructor
  · intro h
    rcases List.mem_filterMap.mp h with ⟨x, hx, hfx⟩
    cases ho : dictGet o x with
    | none =>
      cases hn : dictGet n x with
      | none => rw [ho, hn] at hfx; exact absurd hfx (by simp)
      | some f =>
        rw [ho, hn] at hfx
        exact Or.inl ⟨x, f, ho, hn, (Option.some.inj hfx).symm⟩
    | some fo =>
      cases hn : dictGet n x with
      | none =>
        rw [ho, hn] at hfx
        exact Or.inr (Or.inl ⟨x, fo, ho, hn, (Option.some.inj hfx).symm⟩)
      | some fn =>
        rw [ho, hn] at hfx
        replace hfx :
            (if fo.inputs.length ≠ fn.inputs.length ∨ fo.inputs ≠ fn.inputs then
                some ({ change_type := "form_inputs_changed", xpath := x,
                        old_value := some (inputsRepr fo.inputs),
                        new_value := some (inputsRepr fn.inputs),
                        element_type := "form", timestamp := t } : ChangeDetails)
              else none) = some c := hfx
        by_cases hdiff : fo.inputs.length ≠ fn.inputs.length ∨ fo.inputs ≠ fn.inputs
        · rw [if_pos hdiff] at hfx
          exact Or.inr (Or.inr ⟨x, fo, fn, ho, hn, hdiff, (Option.some.inj hfx).symm⟩)
        · rw [if_neg hdiff] at hfx
          exact absurd hfx (by simp)
  · rintro (⟨x, f, ho, hn, rfl⟩ | ⟨x, f, ho, hn, rfl⟩ | ⟨x, fo, fn, ho, hn, hdiff, rfl⟩)
    · refine List.mem_filterMap.mpr
        ⟨x, mem_unionKeys.mpr (Or.inr (dictGet_some_mem_keys hn)), ?_⟩
      rw [ho, hn]
    · refine List.mem_filterMap.mpr
        ⟨x, mem_unionKeys.mpr (Or.inl (dictGet_some_mem_keys ho)), ?_⟩
      rw [ho, hn]
    · refine List.mem_filterMap.mpr
        ⟨x, mem_unionKeys.mpr (Or.inl (dictGet_some_mem_keys ho)), ?_⟩
      rw [ho, hn]
      show (if fo.inputs.length ≠ fn.inputs.length ∨ fo.inputs ≠ fn.inputs then
          some ({ change_type := "form_inputs_changed", xpath := x,
                  old_value := some (inputsRepr fo.inputs),
                  new_value := some (inputsRepr fn.inputs),
                  element_type := "form", timestamp := t } : ChangeDetails)
        else none)
        = some { change_type := "form_inputs_changed", xpath := x,
                 old_value := some (inputsRepr fo.inputs),
                 new_value := some (inputsRepr fn.inputs),
                 element_type := "form", timestamp := t }
      rw [if_pos hdiff]

/-- Recognizer for the four table-category change types. -/
def isTableChangeType (s : String) : Bool :=
  s == "table_removed" || s == "table_added" || s == "table_headers_changed"
    || s == "table_columns_changed"

/-- C9: when a table path is present on both sides with equal headers and
equal column count, a differing row count produces no change at all: the
diff emits no table-category change for that path. -/
theorem C9_row_count_never_diffed (A B : PageStructure) (now : Nat) (x : String)
    (ta tb : TableStruct)
    (ha : dictGet A.tables x = some ta) (hb : dictGet B.tables x = some tb)
    (hhd : ta.headers = tb.headers) (hcc : ta.column_count = tb.column_count)
    (hrc : ta.row_count ≠ tb.row_count) :
    (compare_structures A B now).filter
      (fun c => isTableChangeType c.change_type && c.xpath == x) = [] := by
  refine List.filter_eq_nil_iff.mpr ?_
  intro c hc
  simp only [Bool.and_eq_true, beq_iff_eq, not_and]
  intro htype hxp
  unfold compare_structures at hc
  rcases List.mem_append.mp hc with hc | hcF
  · rcases List.mem_append.mp hc with hc | hcT
    · rcases List.mem_append.mp hc with hcE | hcA
      · rcases mem_compare_elements_iff.mp hcE with
          ⟨_, _, _, _, rfl⟩ | ⟨_, _, _, _, rfl⟩ | ⟨_, _, _, _, _, _, rfl⟩ <;>
          simp [isTableChangeType] at htype
      · rcases mem_compare_attributes_iff.mp hcA with ⟨x1, a1, _, _, _, rfl⟩
        simp only at htype
        split at htype <;> simp [isTableChangeType] at htype
        split at htype <;> simp [isTableChangeType] at htype
    · rcases mem_compare_tables_iff.mp hcT with
        ⟨x1, v, ho1, hn1, rfl⟩ | ⟨x1, v, hn1, ho1, rfl⟩
        | ⟨x1, vo, vn, ho1, hn1, hne, rfl⟩ | ⟨x1, vo, vn, ho1, hn1, hne, rfl⟩
      · simp only at hxp
        subst hxp
        rw [hb] at hn1
        exact Option.noConfusion hn1
      · simp only at hxp
        subst hxp
        rw [ha] at ho1
        exact Option.noConfusion ho1
      · simp only at hxp
        subst hxp
        rw [ha] at ho1
        rw [hb] at hn1
        have hvo : vo = ta := (Option.some.inj ho1).symm
        have hvn : vn = tb := (Option.some.inj hn1).symm
        exact hne (by rw [hvo, hvn]; exact hhd)
      · simp only at hxp
        subst hxp
        rw [ha] at ho1
        rw [hb] at hn1
        have hvo : vo = ta := (Option.some.inj ho1).symm
        have hvn : vn = tb := (Option.some.inj hn1).symm
        exact hne (by rw [hvo, hvn]; exact hcc)
  · rcases mem_compare_forms_iff.mp hcF with
      ⟨_, _, _, _, rfl⟩ | ⟨_, _, _, _, rfl⟩ | ⟨_, _, _, _, _, _, rfl⟩ <;>
      simp [isTableChangeType] at htype

def tablesOnlyA : PageStructure :=
  { elements := [], attributes := []
  , tables := [("/html/body/table[1]",
      { headers := ["Name", "Age"], row_count := 2, column_count := 2 })]
  , forms := [] }

def tablesOnlyB : PageStructure :=
  { elements := [], attributes := []
  , tables := [("/html/body/table[1]",
      { headers := ["Name", "Age"], row_count := 7, column_count := 2 })]
  , forms := [] }

theorem C9_witness :
    (compare_structures tablesOnlyA tablesOnlyB 0).filter
      (fun c => isTableChangeType c.change_type
        && c.xpath == "/html/body/table[1]") = [] :=
  C9_row_count_never_diffed tablesOnlyA tablesOnlyB 0 "/html/body/table[1]"
    { headers := ["Name", "Age"], row_count := 2, column_count := 2 }
    { headers := ["Name", "Age"], row_count := 7, column_count := 2 }
    rfl rfl rfl rfl (by decide)

/-- Recognizer for the eight addition/removal change types. -/
def isAddRemoveType (s : String) : Bool :=
  s == "element_added" || s == "element_removed"
    || s == "attribute_added" || s == "attribute_removed"
    || s == "table_added" || s == "table_removed"
    || s == "form_added" || s == "form_removed"

/-- Swap of a change type between its added and removed variants; other
change types are left unchanged. -/
def swapAddRemove (s : String) : String :=
  if s = "element_added" then "element_removed"
  else if s = "element_removed" then "element_added"
  else if s = "attribute_added" then "attribute_removed"
  else if s = "attribute_removed" then "attribute_added"
  else if s = "table_added" then "table_removed"
  else if s = "table_removed" then "table_added"
  else if s = "form_added" then "form_removed"
  else if s = "form_removed" then "form_added"
  else s

/-- Mirror of a change for the reversed diff: change type swapped between
added and removed, and old/new values exchanged. -/
def swapChange (c : ChangeDetails) : ChangeDetails :=
  { change_type := swapAddRemove c.change_type, xpath := c.xpath,
    old_value := c.new_value, new_value := c.old_value,
    element_type := c.element_type, timestamp := c.timestamp }

theorem swapAddRemove_fixed (s : String) (h1 : s ≠ "element_added")
    (h2 : s ≠ "element_removed") (h3 : s ≠ "attribute_added")
    (h4 : s ≠ "attribute_removed") (h5 : s ≠ "table_added")
    (h6 : s ≠ "table_removed") (h7 : s ≠ "form_added")
    (h8 : s ≠ "form_removed") : swapAddRemove s = s := by
  unfold swapAddRemove
  rw [if_neg h1, if_neg h2, if_neg h3, if_neg h4, if_neg h5, if_neg h6,
    if_neg h7, if_neg h8]

theorem swapAddRemove_swapAddRemove (s : String) :
    swapAddRemove (swapAddRemove s) = s := by
  by_cases h1 : s = "element_added"
  · subst h1; decide
  by_cases h2 : s = "element_removed"
  · subst h2; decide
  by_cases h3 : s = "attribute_added"
  · subst h3; decide
  by_cases h4 : s = "attribute_removed"
  · subst h4; decide
  by_cases h5 : s = "table_added"
  · subst h5; decide
  by_cases h6 : s = "table_removed"
  · subst h6; decide
  by_cases h7 : s = "form_added"
  · subst h7; decide
  by_cases h8 : s = "form_removed"
  · subst h8; decide
  have hs := swapAddRemove_fixed s h1 h2 h3 h4 h5 h6 h7 h8
  rw [hs, hs]

theorem isAddRemoveType_swapAddRemove (s : String) :
    isAddRemoveType (swapAddRemove s) = isAddRemoveType s := by
  by_cases h1 : s = "element_added"
  · subst h1; decide
  by_cases h2 : s = "element_removed"
  · subst h2; decide
  by_cases h3 : s = "attribute_added"
  · subst h3; decide
  by_cases h4 : s = "attribute_removed"
  · subst h4; decide
  by_cases h5 : s = "table_added"
  · subst h5; decide
  by_cases h6 : s = "table_removed"
  · subst h6; decide
  by_cases h7 : s = "form_added"
  · subst h7; decide
  by_cases h8 : s = "form_removed"
  · subst h8; decide
  rw [swapAddRemove_fixed s h1 h2 h3 h4 h5 h6 h7 h8]

theorem swapChange_swapChange (c : ChangeDetails) :
    swapChange (swapChange c) = c := by
  cases c with
  | mk ct xp ov nv et ts => simp [swapChange, swapAddRemove_swapAddRemove]

theorem mem_swap_compare_structures {A B : PageStructure} {now : Nat}
    {c : ChangeDetails} (ht : isAddRemoveType c.change_type = true)
    (h : c ∈ compare_structures A B now) :
    swapChange c ∈ compare_structures B A now := by
  unfold compare_structures at h ⊢
  rcases List.mem_append.mp h with h | hcF
  · rcases List.mem_append.mp h with h | hcT
    · rcases List.mem_append.mp h with hcE | hcA
      · rcases mem_compare_elements_iff.mp hcE with
          ⟨x, e, ho, hn, rfl⟩ | ⟨x, e, hn, ho, rfl⟩ | ⟨x, eo, en, ho, hn, hne, rfl⟩
        · refine List.mem_append.mpr (Or.inl (List.mem_append.mpr (Or.inl
            (List.mem_append.mpr (Or.inl ?_)))))
          refine mem_compare_elements_iff.mpr (Or.inr (Or.inl ⟨x, e, ho, hn, ?_⟩))
          simp [swapChange, swapAddRemove]
        · refine List.mem_append.mpr (Or.inl (List.mem_append.mpr (Or.inl
            (List.mem_append.mpr (Or.inl ?_)))))
          refine mem_compare_elements_iff.mpr (Or.inl ⟨x, e, hn, ho, ?_⟩)
          simp [swapChange, swapAddRemove]
        · simp [isAddRemoveType] at ht
      · rcases mem_compare_attributes_iff.mp hcA with ⟨x, a, hx, ha, hne, rfl⟩
        refine List.mem_append.mpr (Or.inl (List.mem_append.mpr (Or.inl
          (List.mem_append.mpr (Or.inr ?_)))))
        refine mem_compare_attributes_iff.mpr
          ⟨x, a, hx.symm, ha.symm, fun hsym => hne hsym.symm, ?_⟩
        cases hov : dictGet ((dictGet A.attributes x).getD []) a with
        | none =>
          cases hnv : dictGet ((dictGet B.attributes x).getD []) a with
          | none => exact absurd (hov.trans hnv.symm) hne
          | some w => simp [swapChange, swapAddRemove, hov, hnv]
        | some v =>
          cases hnv : dictGet ((dictGet B.attributes x).getD []) a with
          | none => simp [swapChange, swapAddRemove, hov, hnv]
          | some w => simp [isAddRemoveType, hov, hnv] at ht
    · rcases mem_compare_tables_iff.mp hcT with
        ⟨x, v, ho, hn, rfl⟩ | ⟨x, v, hn, ho, rfl⟩
        | ⟨x, vo, vn, ho, hn, hne, rfl⟩ | ⟨x, vo, vn, ho, hn, hne, rfl⟩
      · refine List.mem_append.mpr (Or.inl (List.mem_append.mpr (Or.inr ?_)))
        refine mem_compare_tables_iff.mpr (Or.inr (Or.inl ⟨x, v, ho, hn, ?_⟩))
        simp [swapChange, swapAddRemove]
      · refine List.mem_append.mpr (Or.inl (List.mem_append.mpr (Or.inr ?_)))
        refine mem_compare_tables_iff.mpr (Or.inl ⟨x, v, hn, ho, ?_⟩)
        simp [swapChange, swapAddRemove]
      · simp [isAddRemoveType] at ht
      · simp [isAddRemoveType] at ht
  · rcases mem_compare_forms_iff.mp hcF with
      ⟨x, f, ho, hn, rfl⟩ | ⟨x, f, ho, hn, rfl⟩ | ⟨x, fo, fn, ho, hn, hdiff, rfl⟩
    · refine List.mem_append.mpr (Or.inr ?_)
      refine mem_compare_forms_iff.mpr (Or.inr (Or.inl ⟨x, f, hn, ho, ?_⟩))
      simp [swapChange, swapAddRemove]
    · refine List.mem_append.mpr (Or.inr ?_)
      refine mem_compare_forms_iff.mpr (Or.inl ⟨x, f, hn, ho, ?_⟩)
      simp [swapChange, swapAddRemove]
    · simp [isAddRemoveType] at ht

/-- C7: for any two structures, the additions and removals of the two
diff directions mirror each other — an addition/removal change is
reported by `compare_structures A B` exactly when the same change with
change type swapped between added and removed and old/new values
exchanged is reported by `compare_structures B A`; this covers element,
attribute, table and form additions/removals. -/
theorem C7_diff_add_remove_symmetry (A B : PageStructure) (now : Nat)
    (c : ChangeDetails) (ht : isAddRemoveType c.change_type = true) :
    c ∈ compare_structures A B now ↔ swapChange c ∈ compare_structures B A now := by
  constructor
  · exact mem_swap_compare_structures ht
  · intro h
    have ht' : isAddRemoveType (swapChange c).change_type = true := by
      show isAddRemoveType (swapAddRemove c.change_type) = true
      rw [isAddRemoveType_swapAddRemove]
      exact ht
    have h2 := mem_swap_compare_structures ht' h
    rwa [swapChange_swapChange] at h2

def elemOnlyB : PageStructure :=
  { elements := [("/html", { tag := "html", text := "", tail := "" })]
  , attributes := [], tables := [], forms := [] }

theorem C7_witness :
    isAddRemoveType "element_added" = true
      ∧ ({ change_type := "element_added", xpath := "/html", old_value := none,
           new_value := some (elemRepr { tag := "html", text := "", tail := "" }),
           element_type := "html", timestamp := 5 }
            ∈ compare_structures emptyStructure elemOnlyB 5
          ↔ swapChange { change_type := "element_added", xpath := "/html",
                           old_value := none,
                           new_value := some
                             (elemRepr { tag := "html", text := "", tail := "" }),
                           element_type := "html", timestamp := 5 }
            ∈ compare_structures elemOnlyB emptyStructure 5) :=
  ⟨by decide,
   C7_diff_add_remove_symmetry emptyStructure elemOnlyB 5
     { change_type := "element_added", xpath := "/html", old_value := none,
       new_value := some (elemRepr { tag := "html", text := "", tail := "" }),
       element_type := "html", timestamp := 5 }
     (by decide)⟩

theorem headerCells_eq (u : Bool) (cs : List HNode) :
    headerCells u cs = ((descendantsWithHeaderFlag u cs).filter
      (fun p => p.1.tag == "th" || (p.1.tag == "td" && p.2))).map Prod.fst := by
  induction u, cs using headerCells.induct with
  | case1 u => simp [headerCells, descendantsWithHeaderFlag]
  | case2 u t a tx tl ch rest ih1 ih2 =>
    rw [headerCells, descendantsWithHeaderFlag]
    rw [List.filter_cons]
    simp only [HNode.tag]
    cases hc : (t == "th" || (t == "td" && u)) with
    | true => simp [ih1, ih2, HNode.tag]
    | false => simp [ih1, ih2, HNode.tag]

theorem filterMap_trim_eq (l : List HNode) :
    (l.filterMap fun h =>
      let s := (textContent h).trim
      if s = "" then none else some s)
      = ((l.map fun h => (textContent h).trim).filter fun s => !(s == "")) := by
  induction l with
  | nil => rfl
  | cons h rest ih =>
    simp only [List.filterMap_cons, List.map_cons, List.filter_cons]
    by_cases hs : (textContent h).trim = ""
    · simp [hs, ih]
    · simp [hs, ih]

/-- Modelled from the spec as amended: the headers are the trimmed,
non-empty text contents, in document order, of the header cells — the
`th` descendants, and the `td` descendants lying under a `thead` node
(identified here from the descendant-with-flag view rather than the
source's collector); the row count counts every `tr` descendant of the
table (header rows and rows of nested tables included); the column count
counts every `td`/`th` descendant of the first such row, or is 0 when
there is no row. -/
def specTableSnapshot (table : HNode) : TableStruct :=
  { headers := (((descendantsWithHeaderFlag false table.children).filter fun p =>
        p.1.tag == "th" || (p.1.tag == "td" && p.2)).map
          fun p => (textContent p.1).trim).filter fun s => !(s == "")
  , row_count := ((descendants table).filter fun r => r.tag == "tr").length
  , column_count :=
      match (descendants table).filter fun r => r.tag == "tr" with
      | [] => 0
      | firstRow :: _ =>
        ((descendants firstRow).filter fun c => c.tag == "td" || c.tag == "th").length }

/-- C8 amended: for every table node, the extracted snapshot's headers
are the trimmed non-empty header-cell texts in document order; but the
row count counts all `tr` descendants (header rows and nested-table rows
included), not only body rows, and the column count counts the
cell-equivalent descendants of the first row (not only its children), or
0 when there is no row. -/
theorem C8_amended_table_extraction (table : HNode) :
    extract_table_structure table = specTableSnapshot table := by
  unfold extract_table_structure specTableSnapshot
  simp only [headerCells_eq, filterMap_trim_eq, List.map_map]
  rfl

/-- Modelled from the spec: the number of cell-equivalent children of
the first row of the table, or 0 when the table has no rows. -/
def firstRowCellChildrenCount (table : HNode) : Nat :=
  match (descendants table).filter (fun r => r.tag == "tr") with
  | [] => 0
  | r :: _ => (cellChildren r).length

/-- Element constructor shorthand for concrete documents: no attributes
and no tail. -/
def el (tag : String) (text : Option String) (children : List HNode) : HNode :=
  HNode.elem tag [] text none children

def exTableHeadRows : HNode :=
  el "table" none
    [ el "thead" none [el "tr" none [el "th" (some "H") []]]
    , el "tbody" none [el "tr" none [el "td" (some "a") []]] ]

def exTableNested : HNode :=
  el "table" none
    [ el "tr" none
        [ el "td" none
            [ el "table" none
                [ el "tr" none [el "td" (some "x") [], el "td" (some "y") []] ] ] ] ]

/-- C8 counterexample: for a table with one header row and one body row,
the code's `row_count` is 2 — all `tr` rows — while the number of body
rows is 1; and for a table whose single row holds a nested two-column
table, the code's `column_count` is 3 — all `td`/`th` descendants of the
first row — while that row has exactly one cell-equivalent child. -/
theorem C8_counterexample :
    (extract_table_structure exTableHeadRows).row_count = 2
      ∧ (bodyRowsSpec false exTableHeadRows.children).length = 1
      ∧ (extract_table_structure exTableNested).column_count = 3
      ∧ firstRowCellChildrenCount exTableNested = 1 := by
  refine ⟨?_, ?_, ?_, ?_⟩ <;> decide
